import Mathlib

/-!
Shallow embedding of the `rciu` instrument-updates generator
(`src/instrument-updates-generator.js`, plus the near-duplicate variant in
`src/unnamed/part_000`) and proofs about its reconciliation core.

Modelling conventions:
* JavaScript strings are modelled as Lean `String` (code-point sequences);
  the JS `<`/`>` string comparison and `.length` count UTF-16 code units,
  which coincides with code points outside the astral planes.
* `JSON.parse` results are modelled by the `JValue` inductive; `undefined`
  (absent property / index) is modelled by `Option.none` where it can arise.
* `Array.prototype.sort` with the three-way comparator
  `instrumentSortCompare` (line 55) is a stable sort whose output is
  non-decreasing in `isinCode`; any stable sort yields the same output, so
  it is modelled with `List.insertionSort` over `instrumentLe`.
* `fast-array-diff`'s `diff(a, b, compareFunc)` (used at line 169) computes
  a longest common subsequence of `a` and `b` under `compareFunc` and
  returns `removed` = elements of `a` outside it (in `a`-order) and
  `added` = elements of `b` outside it (in `b`-order).  `lcs`/`arrayDiff`
  below implement an LCS diff with that interface; the theorems below only
  concern inputs (equal sequences, or sequences strictly sorted by the
  comparison key) on which every longest-common-subsequence diff agrees.
* The S3 blob round-trip (`JSON.parse`/`JSON.stringify`) is elided: the
  persisted state travels as a `DataFile` value.
* `new Date().toISOString()` is supplied as an explicit clock argument
  `now`.
-/

/-- A parsed JSON document, the result of a successful `JSON.parse`. -/
inductive JValue : Type where
  | null : JValue
  | bool (b : Bool) : JValue
  | num (n : Int) : JValue
  | str (s : String) : JValue
  | arr (elems : List JValue) : JValue
  | obj (fields : List (String × JValue)) : JValue

/-- Field lookup in a parsed JSON object (parsed objects have unique keys). -/
def lookupField : List (String × JValue) → String → Option JValue
  | [], _ => none
  | (k, v) :: rest, key => if k == key then some v else lookupField rest key

/-- JS property access `v.key` on a non-null value: the property when `v` is
an object that has it, `undefined` (`none`) otherwise. -/
def getField : JValue → String → Option JValue
  | .obj fields, key => lookupField fields key
  | _, _ => none

/-- Lodash `_.isString`. -/
def isStr : JValue → Bool
  | .str _ => true
  | _ => false

/-- Length `.length` of a JS string value (only consulted after an `isStr` check). -/
def jStrLen : JValue → Nat
  | .str s => s.length
  | _ => 0

/-- Character class `[A-Z]`. -/
def matchUpper (c : Char) : Bool := 'A' ≤ c && c ≤ 'Z'

/-- Character class `\d` = `[0-9]`. -/
def matchDigit (c : Char) : Bool := '0' ≤ c && c ≤ '9'

/-- Character class `[A-Z0-9]`. -/
def matchUpperOrDigit (c : Char) : Bool := matchUpper c || matchDigit c

/-- Regex `ISIN_CODE_REGEX = /^([A-Z]{2})[A-Z0-9]{9}\d{1}$/` (line 17): the whole
string is two uppercase letters, nine uppercase-or-digit characters and one
final digit. -/
def isinCodeMatch (s : String) : Bool :=
  match s.data with
  | [a1, a2, b1, b2, b3, b4, b5, b6, b7, b8, b9, d1] =>
    matchUpper a1 && matchUpper a2 &&
    matchUpperOrDigit b1 && matchUpperOrDigit b2 && matchUpperOrDigit b3 &&
    matchUpperOrDigit b4 && matchUpperOrDigit b5 && matchUpperOrDigit b6 &&
    matchUpperOrDigit b7 && matchUpperOrDigit b8 && matchUpperOrDigit b9 &&
    matchDigit d1
  | _ => false

/-- Truthiness of `instrument.isinCode.match(ISIN_CODE_REGEX)` (guarded by
`_.isString` in the source). -/
def jIsinMatch : JValue → Bool
  | .str s => isinCodeMatch s
  | _ => false

/-- Errors thrown by the validation stage.  `instrumentError` is the
source's `InstrumentError` (the spec's `ValidationError`) with its message
and `invalidElement` (`none` = JS `undefined`).  `typeError` is the built-in
`TypeError` raised by a property access on `null`. -/
inductive VError : Type where
  | typeError : VError
  | instrumentError (message : String) (invalidElement : Option JValue) : VError

/-- The record view `createInstrument` (line 45) builds from a raw row
before field validation: positional fields 0-4, `undefined` never arises
here because rows reaching it have at least 5 elements. -/
structure JInstrument where
  ticker : JValue
  shortName : JValue
  longName : JValue
  isinCode : JValue
  type : JValue

/-- Source `createInstrument` applied to the cells of a (list-shaped) row. -/
def createInstrumentOfCells (cells : List JValue) : JInstrument :=
  { ticker := cells.getD 0 .null
    shortName := cells.getD 1 .null
    longName := cells.getD 2 .null
    isinCode := cells.getD 3 .null
    type := cells.getD 4 .null }

/-- The five field checks of `doParseAndValidation` (lines 85-99); this
block is verbatim identical in both source variants. -/
def checkInstrumentFields (instrument : JInstrument) : Except VError Unit :=
  if !(isStr instrument.ticker) || jStrLen instrument.ticker < 1 || 12 < jStrLen instrument.ticker then
    .error (.instrumentError ("invalid instrument ticker") (some instrument.ticker))
  else if !(isStr instrument.shortName) || jStrLen instrument.shortName < 2 || 24 < jStrLen instrument.shortName then
    .error (.instrumentError ("invalid instrument short name") (some instrument.shortName))
  else if !(isStr instrument.longName) || jStrLen instrument.longName < 2 || 64 < jStrLen instrument.longName then
    .error (.instrumentError ("invalid instrument long name") (some instrument.longName))
  else if !(isStr instrument.isinCode) || !(jIsinMatch instrument.isinCode) then
    .error (.instrumentError ("invalid instrument ISIN code") (some instrument.isinCode))
  else if !(isStr instrument.type) || 24 < jStrLen instrument.type then
    .error (.instrumentError ("invalid instrument type") (some instrument.type))
  else
    .ok ()

/-- Per-row check of the main variant (lines 79-99): list-shaped with 5 to 7
positional fields, then the field checks. -/
def checkRow (instrumentRow : JValue) : Except VError Unit :=
  match instrumentRow with
  | .arr cells =>
    if cells.length < 5 || 7 < cells.length then
      .error (.instrumentError ("invalid instrument row") (some instrumentRow))
    else
      checkInstrumentFields (createInstrumentOfCells cells)
  | _ => .error (.instrumentError ("invalid instrument row") (some instrumentRow))

/-- Traversal `instruments.forEach(...)` of the main variant: the first offending row
aborts the traversal. -/
def checkRows : List JValue → Except VError Unit
  | [] => .ok ()
  | row :: rest =>
    match checkRow row with
    | .error e => .error e
    | .ok _ => checkRows rest

/-- The part of `doParseAndValidation` past the `parsedBody.data` property
access: the `data` field must be a non-empty array of valid rows, which is
returned unchanged. -/
def doParseAndValidationCore (parsedBody : JValue) : Except VError (List JValue) :=
  match getField parsedBody ("data") with
  | some (.arr rows) =>
    if rows.length = 0 then
      .error (.instrumentError ("invalid data") (some (.arr rows)))
    else
      match checkRows rows with
      | .error e => .error e
      | .ok _ => .ok rows
  | other => .error (.instrumentError ("invalid data") other)

/-- Source `doParseAndValidation` (lines 68-103) on an already-parsed body.
A `null` body raises a `TypeError` at `parsedBody.data`. -/
def doParseAndValidation (parsedBody : JValue) : Except VError (List JValue) :=
  match parsedBody with
  | .null => .error .typeError
  | _ => doParseAndValidationCore parsedBody

/-- Per-row check of the `src/unnamed/part_000` variant (lines 86-106): the
row must have exactly 5 positional fields. -/
def checkRowPart0 (instrumentRow : JValue) : Except VError Unit :=
  match instrumentRow with
  | .arr cells =>
    if !(cells.length == 5) then
      .error (.instrumentError ("invalid instrument row") (some instrumentRow))
    else
      checkInstrumentFields (createInstrumentOfCells cells)
  | _ => .error (.instrumentError ("invalid instrument row") (some instrumentRow))

/-- Row traversal of the `part_000` variant. -/
def checkRowsPart0 : List JValue → Except VError Unit
  | [] => .ok ()
  | row :: rest =>
    match checkRowPart0 row with
    | .error e => .error e
    | .ok _ => checkRowsPart0 rest

/-- The `data`-field stage of the `part_000` validator. -/
def doParseAndValidationPart0Core (parsedBody : JValue) : Except VError (List JValue) :=
  match getField parsedBody ("data") with
  | some (.arr rows) =>
    if rows.length = 0 then
      .error (.instrumentError ("invalid data") (some (.arr rows)))
    else
      match checkRowsPart0 rows with
      | .error e => .error e
      | .ok _ => .ok rows
  | other => .error (.instrumentError ("invalid data") other)

/-- Source `doParseAndValidation` of the `src/unnamed/part_000` variant
(lines 75-110). -/
def doParseAndValidationPart0 (parsedBody : JValue) : Except VError (List JValue) :=
  match parsedBody with
  | .null => .error .typeError
  | _ => doParseAndValidationPart0Core parsedBody

/-- Constant `INSTRUMENT_TYPES_TO_SAVE` (line 15). -/
def INSTRUMENT_TYPES_TO_SAVE : List String := ["Részvény", "ETF", "Pink Sheet"]

/-- Source `selectInstruments` (lines 105-108): keep the rows whose derived `type`
(positional field 4) is one of the tracked categories.  `indexOf` only
matches a string field by value equality. -/
def selectInstruments (instruments : List JValue) : List JValue :=
  instruments.filter fun instrumentRow =>
    match instrumentRow with
    | .arr cells =>
      match cells.get? 4 with
      | some (.str t) => INSTRUMENT_TYPES_TO_SAVE.contains t
      | _ => false
    | _ => false

/-- The instrument record of the persisted blob (§3 of the wire format).
Rows reaching this stage are validated, so the five fields are strings. -/
structure Instrument where
  ticker : String
  shortName : String
  longName : String
  isinCode : String
  type : String
deriving DecidableEq, Repr

/-- Source `createInstrument` (lines 45-53) on a validated row, viewed as its
string cells (defaults are never consulted on validated rows, whose first
five cells exist). -/
def createInstrument (instrumentRow : List String) : Instrument :=
  { ticker := instrumentRow.getD 0 ("")
    shortName := instrumentRow.getD 1 ("")
    longName := instrumentRow.getD 2 ("")
    isinCode := instrumentRow.getD 3 ("")
    type := instrumentRow.getD 4 ("") }

/-- A validated JSON row viewed as string cells (non-string cells beyond
index 4 are irrelevant downstream and collapse to `""`). -/
def rowCells (instrumentRow : JValue) : List String :=
  match instrumentRow with
  | .arr cells => cells.map fun c => match c with | .str s => s | _ => ""
  | _ => []

/-- The ordering induced by `instrumentSortCompare` (lines 55-57):
`compare(a, b) ≤ 0` iff `a.isinCode ≤ b.isinCode`. -/
def instrumentLe (a b : Instrument) : Prop := a.isinCode ≤ b.isinCode

instance : DecidableRel instrumentLe :=
  fun a b => inferInstanceAs (Decidable (a.isinCode ≤ b.isinCode))

instance : IsTotal Instrument instrumentLe :=
  ⟨fun a b => le_total a.isinCode b.isinCode⟩

instance : IsTrans Instrument instrumentLe :=
  ⟨fun _ _ _ h₁ h₂ => le_trans h₁ h₂⟩

/-- Model of `xs.sort(instrumentSortCompare)`: a stable sort, non-decreasing in
`isinCode`. -/
def sortInstruments (l : List Instrument) : List Instrument :=
  l.insertionSort instrumentLe

/-- The diff comparator `(a, b) => a.isinCode === b.isinCode` (line 169). -/
def isinEq (a b : Instrument) : Bool := a.isinCode == b.isinCode

/-- A longest common subsequence of two lists under `cmp`, as computed by
the LCS layer of `fast-array-diff`. -/
def lcs (cmp : α → α → Bool) : List α → List α → List α
  | [], _ => []
  | _ :: _, [] => []
  | a :: as, b :: bs =>
    if cmp a b then
      a :: lcs cmp as bs
    else if (lcs cmp as (b :: bs)).length ≤ (lcs cmp (a :: as) bs).length then
      lcs cmp (a :: as) bs
    else
      lcs cmp as (b :: bs)
termination_by as bs => as.length + bs.length

/-- Model of `arrayDiff.diff(a, b, cmp)` from `fast-array-diff`: `removed` = elements
of `a` outside a longest common subsequence, in `a`-order; `added` =
elements of `b` outside it, in `b`-order. -/
def arrayDiff (cmp : α → α → Bool) : List α → List α → List α × List α
  | [], bs => ([], bs)
  | a :: as, [] => (a :: as, [])
  | a :: as, b :: bs =>
    if cmp a b then
      arrayDiff cmp as bs
    else if (lcs cmp as (b :: bs)).length ≤ (lcs cmp (a :: as) bs).length then
      ((arrayDiff cmp (a :: as) bs).1, b :: (arrayDiff cmp (a :: as) bs).2)
    else
      (a :: (arrayDiff cmp as (b :: bs)).1, (arrayDiff cmp as (b :: bs)).2)
termination_by as bs => as.length + bs.length

/-- One update record `{ type, dateTime, instrument }`. -/
structure UpdateRecord where
  type : String
  dateTime : String
  instrument : Instrument
deriving DecidableEq, Repr

/-- The persisted state blob `data.json`: `{ instruments, updates }`. -/
structure DataFile where
  instruments : List Instrument
  updates : List UpdateRecord
deriving DecidableEq, Repr

def mkUpdateRecord (t : String) (now : String) (instrument : Instrument) : UpdateRecord :=
  { type := t, dateTime := now, instrument := instrument }

/-- The update records one reconciliation run appends (lines 169-183): the
`removed` half of the diff of the sorted prior snapshot against the sorted
new selection, then the `added` half, each wrapped with a timestamp. -/
def runRecords (now : String) (instrumentRows : List (List String)) (dataFile : DataFile) : List UpdateRecord :=
  (arrayDiff isinEq (sortInstruments dataFile.instruments)
      (sortInstruments (instrumentRows.map createInstrument))).1.map (mkUpdateRecord ("removed") now)
    ++ (arrayDiff isinEq (sortInstruments dataFile.instruments)
      (sortInstruments (instrumentRows.map createInstrument))).2.map (mkUpdateRecord ("added") now)

/-- The pure core of `saveDataFileToS3` (lines 157-196): sort the new
selection into the snapshot, append this run's records to the update log,
and return the new blob together with the function's return value
`dataFile.updates` (the whole log of the new blob). -/
def saveDataFileToS3 (now : String) (instrumentRows : List (List String)) (dataFile : DataFile) : DataFile × List UpdateRecord :=
  ({ instruments := sortInstruments (instrumentRows.map createInstrument)
     updates := dataFile.updates ++ runRecords now instrumentRows dataFile },
   dataFile.updates ++ runRecords now instrumentRows dataFile)

/-- The blob `initDataFileToS3` (lines 127-146) writes on the bootstrap
path. -/
def initDataFile (instrumentRows : List (List String)) : DataFile :=
  { instruments := sortInstruments (instrumentRows.map createInstrument)
    updates := [] }

/-- External calls the `Handler` (lines 231-278) performs, in order.
`putDataFile df` records a *completed* write of the state blob `df`;
`render` records a rendering *attempt* (which may still fail). -/
inductive Event : Type where
  | fetch : Event
  | headObject : Event
  | getObject : Event
  | putDataFile (df : DataFile) : Event
  | render : Event
  | putHtml : Event
deriving DecidableEq, Repr

/-- How a run ends, mirroring §7's error kinds. -/
inductive RunError : Type where
  | fetchError : RunError
  | bodyParseError : RunError
  | validationError (e : VError) : RunError
  | storageError : RunError
  | renderError : RunError
  | uploadError : RunError

/-- Outcomes of the external collaborators for one invocation:
`fetchRes` is the upstream body (`none` inside = body that is not JSON),
`existsRes` the `headObject` outcome, `readRes` the parsed prior blob,
and the three `Bool`s whether the two writes and the render succeed. -/
structure World where
  fetchRes : Except Unit (Option JValue)
  existsRes : Except Unit Bool
  readRes : Except Unit DataFile
  putDataOk : Bool
  renderOk : Bool
  putHtmlOk : Bool
  now : String

/-- The `Handler` control flow (lines 249-274) as a trace of external calls
plus a result.  Fetch, parse, validation and selection precede any storage
interaction; the bootstrap path writes the initial blob and renders with an
empty update list; the reconciliation path writes the reconciled blob and
only then attempts rendering. -/
def runHandler (w : World) : List Event × Except RunError String :=
  match w.fetchRes with
  | .error _ => ([.fetch], .error .fetchError)
  | .ok none => ([.fetch], .error .bodyParseError)
  | .ok (some body) =>
    match doParseAndValidation body with
    | .error e => ([.fetch], .error (.validationError e))
    | .ok rows =>
      let selected := selectInstruments rows
      match w.existsRes with
      | .error _ => ([.fetch, .headObject], .error .storageError)
      | .ok true =>
        match w.readRes with
        | .error _ => ([.fetch, .headObject, .getObject], .error .storageError)
        | .ok prior =>
          let newFile := (saveDataFileToS3 w.now (selected.map rowCells) prior).1
          if w.putDataOk then
            if w.renderOk then
              if w.putHtmlOk then
                ([.fetch, .headObject, .getObject, .putDataFile newFile, .render, .putHtml],
                 .ok ("instrument updates generated"))
              else
                ([.fetch, .headObject, .getObject, .putDataFile newFile, .render],
                 .error .uploadError)
            else
              ([.fetch, .headObject, .getObject, .putDataFile newFile, .render],
               .error .renderError)
          else
            ([.fetch, .headObject, .getObject], .error .storageError)
      | .ok false =>
        let newFile := initDataFile (selected.map rowCells)
        if w.putDataOk then
          if w.renderOk then
            if w.putHtmlOk then
              ([.fetch, .headObject, .putDataFile newFile, .render, .putHtml],
               .ok ("instrument updates generated"))
            else
              ([.fetch, .headObject, .putDataFile newFile, .render],
               .error .uploadError)
          else
            ([.fetch, .headObject, .putDataFile newFile, .render],
             .error .renderError)
        else
          ([.fetch, .headObject], .error .storageError)

/-- Events that write to storage. -/
def isWriteEvent : Event → Bool
  | .putDataFile _ => true
  | .putHtml => true
  | _ => false

/-- Errors raised before the run may touch storage: upstream fetch failure,
unparseable body, or a validation failure. -/
def isPreStorageError : Except RunError String → Bool
  | .error .fetchError => true
  | .error .bodyParseError => true
  | .error (.validationError _) => true
  | _ => false

/-- Spec-side constraint (§3, quoted in C7): a string field of between `lo`
and `hi` characters. -/
def specStrLenOk (v : JValue) (lo hi : Nat) : Bool :=
  match v with
  | .str s => lo ≤ s.length && s.length ≤ hi
  | _ => false

/-- Spec-side ISIN pattern (§3): two uppercase letters, nine
uppercase-or-digit characters, one trailing digit. -/
def specIsinChars (s : String) : Bool :=
  s.data.length == 12 &&
  (s.data.take 2).all matchUpper &&
  ((s.data.drop 2).take 9).all matchUpperOrDigit &&
  (s.data.drop 11).all matchDigit

/-- Spec-side isinCode field constraint. -/
def specIsinOk (v : JValue) : Bool :=
  match v with
  | .str s => specIsinChars s
  | _ => false

/-- Spec-side `type` field constraint: a string of at most 24 characters. -/
def specTypeOk (v : JValue) : Bool :=
  match v with
  | .str s => s.length ≤ 24
  | _ => false

/-- Spec-side row contract (§4.1, quoted in C7): list-shaped, 5 to 7
positional fields, fields 0-4 satisfying the §3 constraints. -/
def specRowOk (row : JValue) : Bool :=
  match row with
  | .arr cells =>
    5 ≤ cells.length && cells.length ≤ 7 &&
    specStrLenOk (cells.getD 0 .null) 1 12 &&
    specStrLenOk (cells.getD 1 .null) 2 24 &&
    specStrLenOk (cells.getD 2 .null) 2 64 &&
    specIsinOk (cells.getD 3 .null) &&
    specTypeOk (cells.getD 4 .null)
  | _ => false

/-- Spec-side acceptance (§4.1, quoted in C7): the `data` field holds a
non-empty list all of whose rows are well-formed. -/
def specAccepts (parsedBody : JValue) : Bool :=
  match getField parsedBody ("data") with
  | some (.arr rows) => !rows.isEmpty && rows.all specRowOk
  | _ => false

/-- The raw rows of the `data` field (the validator's successful output). -/
def dataRowsOf (parsedBody : JValue) : List JValue :=
  match getField parsedBody ("data") with
  | some (.arr rows) => rows
  | _ => []

/-- Sample validated row and derived record used in concrete runs. -/
def sampleRow1 : List String := ["T", "SN", "LN", "US0000000001", "ETF"]

def sampleInstrument1 : Instrument := createInstrument sampleRow1

def sampleRow2 : List String := ["U", "SN2", "LN2", "US0000000002", "ETF"]

def sampleInstrument2 : Instrument := createInstrument sampleRow2

def sampleUpdate1 : UpdateRecord :=
  { type := "added", dateTime := "t1", instrument := sampleInstrument1 }

def sampleDataFile1 : DataFile :=
  { instruments := [sampleInstrument1], updates := [sampleUpdate1] }

/-- Shared sample prior state with two instruments for witnesses. -/
def sampleDataFile2 : DataFile :=
  { instruments := [sampleInstrument1, sampleInstrument2], updates := [sampleUpdate1] }

/-- Discriminator: is this validator error the spec's `ValidationError`
(the source's `InstrumentError`), as opposed to the built-in `TypeError`? -/
def isInstrumentErrorB : VError → Bool
  | .instrumentError _ _ => true
  | .typeError => false

/-- Discriminator on validator results: did it throw a `ValidationError`? -/
def isValidationError : Except VError (List JValue) → Bool
  | .error e => isInstrumentErrorB e
  | .ok _ => false

/-- A well-formed five-field row, as parsed JSON. -/
def sample5Row : JValue :=
  .arr [.str ("T"), .str ("SN"), .str ("LN"), .str ("US0000000001"), .str ("ETF")]

/-- A body whose single row has five fields. -/
def sampleBody5 : JValue := .obj [("data", .arr [sample5Row])]

/-- A row with six positional fields (valid first five, one extra). -/
def sample6Row : JValue :=
  .arr [.str ("T"), .str ("SN"), .str ("LN"), .str ("US0000000001"), .str ("ETF"), .str ("x")]

/-- A body whose single row has six fields. -/
def sampleBody6 : JValue := .obj [("data", .arr [sample6Row])]

/-- Scanning the trace left to right: every render attempt is preceded by a
completed data-file write. -/
def renderPrecededByWrite : List Event → Bool
  | [] => true
  | .putDataFile _ :: _ => true
  | .render :: _ => false
  | _ :: rest => renderPrecededByWrite rest

/-- A run in which storage holds a prior blob and rendering fails. -/
def sampleWorld : World :=
  { fetchRes := .ok (some sampleBody5)
    existsRes := .ok true
    readRes := .ok sampleDataFile1
    putDataOk := true
    renderOk := false
    putHtmlOk := true
    now := "t2" }

/-- Strictly ascending in the business key `isinCode`. -/
def StrictByIsin (l : List Instrument) : Prop :=
  l.Pairwise fun a b => a.isinCode < b.isinCode

theorem isinEq_true_iff {a b : Instrument} : isinEq a b = true ↔ a.isinCode = b.isinCode := by
  simp [isinEq]

theorem isinEq_false_of_ne {a b : Instrument} (h : a.isinCode ≠ b.isinCode) : isinEq a b = false := by
  simp [isinEq, h]

theorem isinEq_self (a : Instrument) : isinEq a a = true := by
  simp [isinEq]

theorem strict_head {a : Instrument} {l : List Instrument} (h : StrictByIsin (a :: l)) :
    ∀ x ∈ l, a.isinCode < x.isinCode :=
  (List.pairwise_cons.mp h).1

theorem strict_tail {a : Instrument} {l : List Instrument} (h : StrictByIsin (a :: l)) :
    StrictByIsin l :=
  (List.pairwise_cons.mp h).2

/-- Diffing a sequence against itself: the comparator is reflexive, so both
halves of the diff are empty. -/
theorem arrayDiff_self (l : List Instrument) : arrayDiff isinEq l l = ([], []) := by
  induction l with
  | nil => simp [arrayDiff]
  | cons a as ih => simp [arrayDiff, isinEq_self, ih]

/-- Unfolding of the diff comparator check against a cons list. -/
theorem any_isinEq_cons (x b : Instrument) (bs : List Instrument) :
    ((b :: bs).any fun q => isinEq x q) = (isinEq x b || bs.any fun q => isinEq x q) := by
  simp [List.any_cons]

/-- Auxiliary: on sequences strictly sorted by `isinCode`, the longest
common subsequence under `isinEq` is the sorted common part, i.e. the
elements of the first sequence whose key also occurs in the second. -/
theorem lcs_sorted_aux :
    ∀ (n : Nat) (P N : List Instrument), P.length + N.length ≤ n →
      StrictByIsin P → StrictByIsin N →
      lcs isinEq P N = P.filter fun p => N.any fun q => isinEq p q := by
  intro n
  induction n with
  | zero =>
    intro P N hlen hP hN
    have hP0 : P = [] := List.length_eq_zero.mp (by omega)
    subst hP0
    simp [lcs]
  | succ n ih =>
    intro P N hlen hP hN
    match P, N with
    | [], N => simp [lcs]
    | a :: as, [] => simp [lcs]
    | a :: as, b :: bs =>
      have hAs : StrictByIsin as := strict_tail hP
      have hBs : StrictByIsin bs := strict_tail hN
      have hlen' : as.length + bs.length + 2 ≤ n + 1 := by
        simp only [List.length_cons] at hlen
        omega
      by_cases hab : isinEq a b = true
      · have hkey : a.isinCode = b.isinCode := isinEq_true_iff.mp hab
        have htail : lcs isinEq as bs = as.filter fun p => bs.any fun q => isinEq p q :=
          ih as bs (by omega) hAs hBs
        have hdropb : (as.filter fun p => (b :: bs).any fun q => isinEq p q)
            = as.filter fun p => bs.any fun q => isinEq p q := by
          apply List.filter_congr
          intro x hx
          have hxa : a.isinCode < x.isinCode := strict_head hP x hx
          have hxb : isinEq x b = false :=
            isinEq_false_of_ne (by rw [← hkey]; exact ne_of_gt hxa)
          simp [List.any_cons, hxb]
        have hamem : ((b :: bs).any fun q => isinEq a q) = true := by
          simp only [List.any_cons, Bool.or_eq_true]
          exact Or.inl (isinEq_true_iff.mpr hkey)
        rw [lcs]
        rw [if_pos hab, htail, List.filter_cons, hamem, if_pos rfl, hdropb]
      · have hne : a.isinCode ≠ b.isinCode := fun h => hab (isinEq_true_iff.mpr h)
        have hl₁ : lcs isinEq (a :: as) bs
            = (a :: as).filter fun p => bs.any fun q => isinEq p q :=
          ih (a :: as) bs (by simp only [List.length_cons]; omega) hP hBs
        have hl₂ : lcs isinEq as (b :: bs)
            = as.filter fun p => (b :: bs).any fun q => isinEq p q :=
          ih as (b :: bs) (by simp only [List.length_cons]; omega) hAs hN
        rcases lt_or_gt_of_ne hne with hlt | hgt
        · -- key a < key b: `a` matches nothing in `b :: bs`
          have hbge : ∀ y ∈ b :: bs, a.isinCode < y.isinCode := by
            intro y hy
            rcases List.mem_cons.mp hy with rfl | hy
            · exact hlt
            · exact lt_trans hlt (strict_head hN y hy)
          have haN : ((b :: bs).any fun q => isinEq a q) = false := by
            simp only [List.any_eq_false]
            intro y hy
            simp [isinEq_false_of_ne (ne_of_lt (hbge y hy))]
          have habs : (bs.any fun q => isinEq a q) = false := by
            simp only [List.any_eq_false]
            intro y hy
            simp [isinEq_false_of_ne (ne_of_lt (hbge y (List.mem_cons_of_mem b hy)))]
          have hl₁' : lcs isinEq (a :: as) bs
              = as.filter fun p => bs.any fun q => isinEq p q := by
            rw [hl₁, List.filter_cons, habs]
            simp
          have hsub : List.Sublist (as.filter fun p => bs.any fun q => isinEq p q)
              (as.filter fun p => (b :: bs).any fun q => isinEq p q) := by
            apply List.monotone_filter_right
            intro x hx
            simp only [List.any_cons, Bool.or_eq_true]
            exact Or.inr hx
          rw [lcs]
          rw [if_neg hab, List.filter_cons, haN]
          simp only [Bool.false_eq_true, if_false]
          by_cases hc : (lcs isinEq as (b :: bs)).length ≤ (lcs isinEq (a :: as) bs).length
          · rw [if_pos hc]
            have hlen₁₂ : (as.filter fun p => (b :: bs).any fun q => isinEq p q).length
                ≤ (as.filter fun p => bs.any fun q => isinEq p q).length := by
              rw [← hl₁', ← hl₂]; exact hc
            have heq : (as.filter fun p => bs.any fun q => isinEq p q)
                = as.filter fun p => (b :: bs).any fun q => isinEq p q :=
              hsub.eq_of_length_le hlen₁₂
            rw [hl₁', heq]
          · rw [if_neg hc, hl₂]
        · -- key b < key a: `b` matches nothing in `a :: as`
          have hage : ∀ x ∈ a :: as, b.isinCode < x.isinCode := by
            intro x hx
            rcases List.mem_cons.mp hx with rfl | hx
            · exact hgt
            · exact lt_trans hgt (strict_head hP x hx)
          have hdropb : ∀ l : List Instrument, (∀ x ∈ l, b.isinCode < x.isinCode) →
              (l.filter fun p => (b :: bs).any fun q => isinEq p q)
                = l.filter fun p => bs.any fun q => isinEq p q := by
            intro l hl
            apply List.filter_congr
            intro x hx
            simp [List.any_cons, isinEq_false_of_ne (ne_of_gt (hl x hx))]
          have hl₂' : lcs isinEq as (b :: bs)
              = as.filter fun p => bs.any fun q => isinEq p q := by
            rw [hl₂, hdropb as (fun x hx => hage x (List.mem_cons_of_mem a hx))]
          have hsub : List.Sublist (as.filter fun p => bs.any fun q => isinEq p q)
              ((a :: as).filter fun p => bs.any fun q => isinEq p q) :=
            List.Sublist.filter _ (List.sublist_cons_self a as)
          have hc : (lcs isinEq as (b :: bs)).length ≤ (lcs isinEq (a :: as) bs).length := by
            rw [hl₂', hl₁]; exact hsub.length_le
          rw [lcs]
          rw [if_neg hab, if_pos hc, hl₁, hdropb (a :: as) hage]

/-- Non-auxiliary form of `lcs_sorted_aux`. -/
theorem lcs_sorted (P N : List Instrument) (hP : StrictByIsin P) (hN : StrictByIsin N) :
    lcs isinEq P N = P.filter fun p => N.any fun q => isinEq p q :=
  lcs_sorted_aux (P.length + N.length) P N le_rfl hP hN

/-- Splitting a list by whether the key occurs in `L`: the two filtered
parts account for the whole length. -/
theorem length_filter_not_any (l L : List Instrument) :
    (l.filter fun p => L.any fun q => isinEq p q).length
      + (l.filter fun p => !(L.any fun q => isinEq p q)).length = l.length := by
  induction l with
  | nil => simp
  | cons a l ih =>
    by_cases h : (L.any fun q => isinEq a q) = true
    · simp only [List.filter_cons, h, Bool.not_true, Bool.false_eq_true, if_false, if_true,
        List.length_cons]
      omega
    · simp only [List.filter_cons, Bool.eq_false_iff.mpr h, Bool.not_false, Bool.false_eq_true,
        if_false, if_true, List.length_cons]
      omega

/-- Auxiliary: on sequences strictly sorted by `isinCode`, the LCS diff is
exactly the key-based symmetric difference: `removed` is the prior elements
whose key does not occur in the new sequence (in prior order), `added` the
new elements whose key does not occur in the prior sequence (in new
order). -/
theorem arrayDiff_sorted_aux :
    ∀ (n : Nat) (P N : List Instrument), P.length + N.length ≤ n →
      StrictByIsin P → StrictByIsin N →
      arrayDiff isinEq P N =
        (P.filter fun p => !(N.any fun q => isinEq p q),
         N.filter fun q => !(P.any fun p => isinEq p q)) := by
  intro n
  induction n with
  | zero =>
    intro P N hlen hP hN
    have hP0 : P = [] := List.length_eq_zero.mp (by omega)
    have hN0 : N = [] := List.length_eq_zero.mp (by omega)
    subst hP0; subst hN0
    rw [arrayDiff]
    rfl
  | succ n ih =>
    intro P N hlen hP hN
    match P, N with
    | [], N => rw [arrayDiff]; simp
    | a :: as, [] => rw [arrayDiff]; simp
    | a :: as, b :: bs =>
      have hAs : StrictByIsin as := strict_tail hP
      have hBs : StrictByIsin bs := strict_tail hN
      have hlen' : as.length + bs.length + 2 ≤ n + 1 := by
        simp only [List.length_cons] at hlen
        omega
      by_cases hab : isinEq a b = true
      · -- equal keys: both heads are consumed by the common subsequence
        have hkey : a.isinCode = b.isinCode := isinEq_true_iff.mp hab
        have htail := ih as bs (by omega) hAs hBs
        have hamem : ((b :: bs).any fun q => isinEq a q) = true := by
          simp only [List.any_cons, Bool.or_eq_true]
          exact Or.inl (isinEq_true_iff.mpr hkey)
        have hbmem : ((a :: as).any fun p => isinEq p b) = true := by
          simp only [List.any_cons, Bool.or_eq_true]
          exact Or.inl hab
        have hfst : ((a :: as).filter fun p => !((b :: bs).any fun q => isinEq p q))
            = as.filter fun p => !(bs.any fun q => isinEq p q) := by
          rw [List.filter_cons, hamem]
          simp only [Bool.not_true, Bool.false_eq_true, if_false]
          apply List.filter_congr
          intro x hx
          have hxb : isinEq x b = false :=
            isinEq_false_of_ne (by rw [← hkey]; exact ne_of_gt (strict_head hP x hx))
          simp [List.any_cons, hxb]
        have hsnd : ((b :: bs).filter fun q => !((a :: as).any fun p => isinEq p q))
            = bs.filter fun q => !(as.any fun p => isinEq p q) := by
          rw [List.filter_cons, hbmem]
          simp only [Bool.not_true, Bool.false_eq_true, if_false]
          apply List.filter_congr
          intro y hy
          have hay : isinEq a y = false :=
            isinEq_false_of_ne (by rw [hkey]; exact ne_of_lt (strict_head hN y hy))
          simp [List.any_cons, hay]
        rw [arrayDiff]
        rw [if_pos hab, htail, hfst, hsnd]
      · have hne : a.isinCode ≠ b.isinCode := fun h => hab (isinEq_true_iff.mpr h)
        have hl₁ : lcs isinEq (a :: as) bs
            = (a :: as).filter fun p => bs.any fun q => isinEq p q :=
          lcs_sorted (a :: as) bs hP hBs
        have hl₂ : lcs isinEq as (b :: bs)
            = as.filter fun p => (b :: bs).any fun q => isinEq p q :=
          lcs_sorted as (b :: bs) hAs hN
        rcases lt_or_gt_of_ne hne with hlt | hgt
        · -- key a < key b: `a` is a removal
          have hbge : ∀ y ∈ b :: bs, a.isinCode < y.isinCode := by
            intro y hy
            rcases List.mem_cons.mp hy with rfl | hy
            · exact hlt
            · exact lt_trans hlt (strict_head hN y hy)
          have haN : ((b :: bs).any fun q => isinEq a q) = false := by
            simp only [List.any_eq_false]
            intro y hy
            simp [isinEq_false_of_ne (ne_of_lt (hbge y hy))]
          have habs : (bs.any fun q => isinEq a q) = false := by
            simp only [List.any_eq_false]
            intro y hy
            simp [isinEq_false_of_ne (ne_of_lt (hbge y (List.mem_cons_of_mem b hy)))]
          have hl₁' : lcs isinEq (a :: as) bs
              = as.filter fun p => bs.any fun q => isinEq p q := by
            rw [hl₁, List.filter_cons, habs]
            simp
          rw [arrayDiff]
          rw [if_neg hab]
          by_cases hc : (lcs isinEq as (b :: bs)).length ≤ (lcs isinEq (a :: as) bs).length
          · -- tie: the key of `b` cannot occur in `as` either
            rw [if_pos hc]
            have hlen₁₂ : (as.filter fun p => (b :: bs).any fun q => isinEq p q).length
                ≤ (as.filter fun p => bs.any fun q => isinEq p q).length := by
              rw [← hl₁', ← hl₂]; exact hc
            have hsubpos : List.Sublist (as.filter fun p => bs.any fun q => isinEq p q)
                (as.filter fun p => (b :: bs).any fun q => isinEq p q) := by
              apply List.monotone_filter_right
              intro x hx
              simp only [List.any_cons, Bool.or_eq_true]
              exact Or.inr hx
            have heqpos : (as.filter fun p => bs.any fun q => isinEq p q)
                = as.filter fun p => (b :: bs).any fun q => isinEq p q :=
              hsubpos.eq_of_length_le hlen₁₂
            -- hence no element of `as` matches `b`
            have hbas : (as.any fun p => isinEq p b) = false := by
              by_contra hcon
              rcases List.any_eq_true.mp (eq_true_of_ne_false hcon) with ⟨x, hxas, hxb⟩
              have hxN : x ∈ as.filter fun p => (b :: bs).any fun q => isinEq p q := by
                rw [List.mem_filter]
                refine ⟨hxas, ?_⟩
                simp only [List.any_cons, Bool.or_eq_true]
                exact Or.inl hxb
              rw [← heqpos] at hxN
              rcases List.mem_filter.mp hxN with ⟨-, hxbs⟩
              rcases List.any_eq_true.mp hxbs with ⟨y, hybs, hxy⟩
              have h1 : x.isinCode = b.isinCode := isinEq_true_iff.mp hxb
              have h2 : x.isinCode = y.isinCode := isinEq_true_iff.mp hxy
              have h3 : b.isinCode < y.isinCode := strict_head hN y hybs
              rw [← h1, ← h2] at h3
              exact lt_irrefl _ h3
            -- complements of equal-length nested positive filters agree
            have hsubneg : List.Sublist (as.filter fun p => !((b :: bs).any fun q => isinEq p q))
                (as.filter fun p => !(bs.any fun q => isinEq p q)) := by
              apply List.monotone_filter_right
              intro x hx
              simp only [Bool.not_eq_true', List.any_eq_false] at hx ⊢
              intro y hy
              exact hx y (List.mem_cons_of_mem b hy)
            have hlenneg : (as.filter fun p => !(bs.any fun q => isinEq p q)).length
                ≤ (as.filter fun p => !((b :: bs).any fun q => isinEq p q)).length := by
              have e1 := length_filter_not_any as bs
              have e2 := length_filter_not_any as (b :: bs)
              have e3 := congrArg List.length heqpos
              omega
            have heqneg : (as.filter fun p => !((b :: bs).any fun q => isinEq p q))
                = as.filter fun p => !(bs.any fun q => isinEq p q) :=
              hsubneg.eq_of_length_le hlenneg
            have hrec := ih (a :: as) bs (by simp only [List.length_cons]; omega) hP hBs
            rw [hrec]
            simp only [Prod.mk.injEq]
            constructor
            · have h1 : ((a :: as).filter fun p => !((b :: bs).any fun q => isinEq p q))
                  = a :: (as.filter fun p => !((b :: bs).any fun q => isinEq p q)) := by
                rw [List.filter_cons, haN]
                simp
              have h2 : ((a :: as).filter fun p => !(bs.any fun q => isinEq p q))
                  = a :: (as.filter fun p => !(bs.any fun q => isinEq p q)) := by
                rw [List.filter_cons, habs]
                simp
              rw [h1, h2, heqneg]
            · have hbP : ((a :: as).any fun p => isinEq p b) = false := by
                simp only [List.any_cons, Bool.or_eq_false_iff]
                exact ⟨Bool.eq_false_iff.mpr hab, hbas⟩
              have h3 : ((b :: bs).filter fun q => !((a :: as).any fun p => isinEq p q))
                  = b :: (bs.filter fun q => !((a :: as).any fun p => isinEq p q)) := by
                rw [List.filter_cons, hbP]
                simp
              rw [h3]
          · rw [if_neg hc]
            have hrec := ih as (b :: bs) (by simp only [List.length_cons]; omega) hAs hN
            rw [hrec]
            simp only [Prod.mk.injEq]
            constructor
            · have h1 : ((a :: as).filter fun p => !((b :: bs).any fun q => isinEq p q))
                  = a :: (as.filter fun p => !((b :: bs).any fun q => isinEq p q)) := by
                rw [List.filter_cons, haN]
                simp
              rw [h1]
            · apply List.filter_congr
              intro y hy
              have hay : isinEq a y = false :=
                isinEq_false_of_ne (ne_of_lt (hbge y hy))
              simp [List.any_cons, hay]
        · -- key b < key a: `b` is an addition, and the tie test always
          -- favours dropping `b`
          have hage : ∀ x ∈ a :: as, b.isinCode < x.isinCode := by
            intro x hx
            rcases List.mem_cons.mp hx with rfl | hx
            · exact hgt
            · exact lt_trans hgt (strict_head hP x hx)
          have hdropb : ∀ l : List Instrument, (∀ x ∈ l, b.isinCode < x.isinCode) →
              (l.filter fun p => (b :: bs).any fun q => isinEq p q)
                = l.filter fun p => bs.any fun q => isinEq p q := by
            intro l hl
            apply List.filter_congr
            intro x hx
            simp [List.any_cons, isinEq_false_of_ne (ne_of_gt (hl x hx))]
          have hl₂' : lcs isinEq as (b :: bs)
              = as.filter fun p => bs.any fun q => isinEq p q := by
            rw [hl₂, hdropb as (fun x hx => hage x (List.mem_cons_of_mem a hx))]
          have hsub : List.Sublist (as.filter fun p => bs.any fun q => isinEq p q)
              ((a :: as).filter fun p => bs.any fun q => isinEq p q) :=
            List.Sublist.filter _ (List.sublist_cons_self a as)
          have hc : (lcs isinEq as (b :: bs)).length ≤ (lcs isinEq (a :: as) bs).length := by
            rw [hl₂', hl₁]; exact hsub.length_le
          rw [arrayDiff]
          rw [if_neg hab, if_pos hc]
          have hrec := ih (a :: as) bs (by simp only [List.length_cons]; omega) hP hBs
          rw [hrec]
          simp only [Prod.mk.injEq]
          constructor
          · apply List.filter_congr
            intro x hx
            simp [List.any_cons, isinEq_false_of_ne (ne_of_gt (hage x hx))]
          · have hbP : ((a :: as).any fun p => isinEq p b) = false := by
              simp only [List.any_eq_false]
              intro x hx
              simp [isinEq_false_of_ne (ne_of_gt (hage x hx))]
            have h3 : ((b :: bs).filter fun q => !((a :: as).any fun p => isinEq p q))
                = b :: (bs.filter fun q => !((a :: as).any fun p => isinEq p q)) := by
              rw [List.filter_cons, hbP]
              simp
            rw [h3]

/-- Non-auxiliary form of `arrayDiff_sorted_aux`. -/
theorem arrayDiff_sorted (P N : List Instrument) (hP : StrictByIsin P) (hN : StrictByIsin N) :
    arrayDiff isinEq P N =
      (P.filter fun p => !(N.any fun q => isinEq p q),
       N.filter fun q => !(P.any fun p => isinEq p q)) :=
  arrayDiff_sorted_aux (P.length + N.length) P N le_rfl hP hN

theorem sortInstruments_sorted (l : List Instrument) :
    List.Sorted instrumentLe (sortInstruments l) :=
  List.sorted_insertionSort instrumentLe l

theorem sortInstruments_perm (l : List Instrument) : List.Perm (sortInstruments l) l :=
  List.perm_insertionSort instrumentLe l

/-- Sorting an already-sorted sequence is the identity; in particular the
defensive re-sort of the persisted snapshot (line 167) is inert on the
output of a previous run. -/
theorem sortInstruments_idem (l : List Instrument) :
    sortInstruments (sortInstruments l) = sortInstruments l :=
  List.Sorted.insertionSort_eq (sortInstruments_sorted l)

/-- With pairwise-distinct keys, the sorted sequence is strictly
ascending. -/
theorem sortInstruments_strict (l : List Instrument)
    (h : (l.map Instrument.isinCode).Nodup) : StrictByIsin (sortInstruments l) := by
  have hs : List.Pairwise instrumentLe (sortInstruments l) := sortInstruments_sorted l
  have hnd : ((sortInstruments l).map Instrument.isinCode).Nodup :=
    (((sortInstruments_perm l).map Instrument.isinCode).nodup_iff).mpr h
  have hne : (sortInstruments l).Pairwise fun a b => a.isinCode ≠ b.isinCode :=
    List.pairwise_map.mp hnd
  exact (hs.and hne).imp fun hab => lt_of_le_of_ne hab.1 hab.2

/-- When both the prior snapshot and the new selection are duplicate-free in
`isinCode`, one run's appended records are: the removed instruments (prior
order, which is ascending after the sort) and then the added ones (new
order, ascending after the sort). -/
theorem runRecords_eq (now : String) (instrumentRows : List (List String)) (dataFile : DataFile)
    (hP : (dataFile.instruments.map Instrument.isinCode).Nodup)
    (hN : ((instrumentRows.map createInstrument).map Instrument.isinCode).Nodup) :
    runRecords now instrumentRows dataFile =
      ((sortInstruments dataFile.instruments).filter fun p =>
          !((sortInstruments (instrumentRows.map createInstrument)).any fun q => isinEq p q)).map
        (mkUpdateRecord ("removed") now)
      ++ ((sortInstruments (instrumentRows.map createInstrument)).filter fun q =>
          !((sortInstruments dataFile.instruments).any fun p => isinEq p q)).map
        (mkUpdateRecord ("added") now) := by
  unfold runRecords
  rw [arrayDiff_sorted _ _ (sortInstruments_strict _ hP) (sortInstruments_strict _ hN)]

theorem isinEq_comm (a b : Instrument) : isinEq a b = isinEq b a := by
  by_cases h : a.isinCode = b.isinCode
  · simp [isinEq, h]
  · simp [isinEq, h, Ne.symm h]

theorem any_isinEq_comm (B : List Instrument) (x : Instrument) :
    (B.any fun p => isinEq p x) = B.any fun q => isinEq x q := by
  induction B with
  | nil => rfl
  | cons y ys ih => simp only [List.any_cons, ih, isinEq_comm]

/-- Keys of the elements of `A` that have no key-match in `B`: exactly the
keys in `A` but not in `B`. -/
theorem mem_filter_not_any_map (A B : List Instrument) (s : String) :
    (s ∈ (A.filter fun p => !(B.any fun q => isinEq p q)).map Instrument.isinCode)
      ↔ (s ∈ A.map Instrument.isinCode ∧ s ∉ B.map Instrument.isinCode) := by
  simp only [List.mem_map, List.mem_filter, Bool.not_eq_true', List.any_eq_false]
  constructor
  · rintro ⟨p, ⟨hpA, hpB⟩, rfl⟩
    refine ⟨⟨p, hpA, rfl⟩, ?_⟩
    rintro ⟨q, hqB, hqs⟩
    exact absurd (isinEq_true_iff.mpr hqs.symm) (hpB q hqB)
  · rintro ⟨⟨p, hpA, rfl⟩, hsB⟩
    refine ⟨p, ⟨hpA, fun q hq hEq => ?_⟩, rfl⟩
    exact hsB ⟨q, hq, (isinEq_true_iff.mp hEq).symm⟩

/-- Same, with the comparator applied in the orientation the diff callback
uses for additions. -/
theorem mem_filter_not_any_map_swap (A B : List Instrument) (s : String) :
    (s ∈ (A.filter fun q => !(B.any fun p => isinEq p q)).map Instrument.isinCode)
      ↔ (s ∈ A.map Instrument.isinCode ∧ s ∉ B.map Instrument.isinCode) := by
  have h : (A.filter fun q => !(B.any fun p => isinEq p q))
      = A.filter fun q => !(B.any fun p => isinEq q p) := by
    apply List.filter_congr
    intro x _
    rw [any_isinEq_comm]
  rw [h]
  exact mem_filter_not_any_map A B s

/-- C1: Idempotence of reconciliation: for every prior state and selected
row sequence, running `saveDataFileToS3` a second time with the same
selection against the state produced by the first run appends zero update
records: the second run's appended-record list is empty and the persisted
update log is unchanged. -/
theorem claim1_reconciliation_idempotent (now₁ now₂ : String)
    (instrumentRows : List (List String)) (dataFile : DataFile) :
    runRecords now₂ instrumentRows (saveDataFileToS3 now₁ instrumentRows dataFile).1 = []
    ∧ (saveDataFileToS3 now₂ instrumentRows
          (saveDataFileToS3 now₁ instrumentRows dataFile).1).1.updates
        = (saveDataFileToS3 now₁ instrumentRows dataFile).1.updates := by
  have hD1 : (saveDataFileToS3 now₁ instrumentRows dataFile).1.instruments
      = sortInstruments (instrumentRows.map createInstrument) := rfl
  have hzero : runRecords now₂ instrumentRows (saveDataFileToS3 now₁ instrumentRows dataFile).1 = [] := by
    unfold runRecords
    rw [hD1, sortInstruments_idem, arrayDiff_self]
    rfl
  refine ⟨hzero, ?_⟩
  have hupd : (saveDataFileToS3 now₂ instrumentRows
        (saveDataFileToS3 now₁ instrumentRows dataFile).1).1.updates
      = (saveDataFileToS3 now₁ instrumentRows dataFile).1.updates
        ++ runRecords now₂ instrumentRows (saveDataFileToS3 now₁ instrumentRows dataFile).1 := rfl
  rw [hupd, hzero, List.append_nil]

/-- C2: Diff completeness: with duplicate-free keys on both sides, the keys
of the records appended by one run are exactly the symmetric difference of
the key sets, and no record is produced for a key present in both. -/
theorem claim2_diff_completeness (now : String) (instrumentRows : List (List String))
    (dataFile : DataFile)
    (hP : (dataFile.instruments.map Instrument.isinCode).Nodup)
    (hN : ((instrumentRows.map createInstrument).map Instrument.isinCode).Nodup) :
    ∀ s : String,
      s ∈ (runRecords now instrumentRows dataFile).map (fun u => u.instrument.isinCode)
        ↔ ((s ∈ dataFile.instruments.map Instrument.isinCode
              ∧ s ∉ (instrumentRows.map createInstrument).map Instrument.isinCode)
          ∨ (s ∈ (instrumentRows.map createInstrument).map Instrument.isinCode
              ∧ s ∉ dataFile.instruments.map Instrument.isinCode)) := by
  intro s
  rw [runRecords_eq now instrumentRows dataFile hP hN]
  rw [List.map_append, List.mem_append, List.map_map, List.map_map]
  have hpermP : ∀ t : String, (t ∈ (sortInstruments dataFile.instruments).map Instrument.isinCode)
      ↔ t ∈ dataFile.instruments.map Instrument.isinCode := fun t =>
    ((sortInstruments_perm dataFile.instruments).map Instrument.isinCode).mem_iff
  have hpermN : ∀ t : String,
      (t ∈ (sortInstruments (instrumentRows.map createInstrument)).map Instrument.isinCode)
        ↔ t ∈ (instrumentRows.map createInstrument).map Instrument.isinCode := fun t =>
    ((sortInstruments_perm (instrumentRows.map createInstrument)).map Instrument.isinCode).mem_iff
  constructor
  · rintro (h | h)
    · have h' := (mem_filter_not_any_map _ _ s).mp h
      exact Or.inl ⟨(hpermP s).mp h'.1, fun hc => h'.2 ((hpermN s).mpr hc)⟩
    · have h' := (mem_filter_not_any_map_swap _ _ s).mp h
      exact Or.inr ⟨(hpermN s).mp h'.1, fun hc => h'.2 ((hpermP s).mpr hc)⟩
  · rintro (⟨h1, h2⟩ | ⟨h1, h2⟩)
    · exact Or.inl ((mem_filter_not_any_map _ _ s).mpr
        ⟨(hpermP s).mpr h1, fun hc => h2 ((hpermN s).mp hc)⟩)
    · exact Or.inr ((mem_filter_not_any_map_swap _ _ s).mpr
        ⟨(hpermN s).mpr h1, fun hc => h2 ((hpermP s).mp hc)⟩)

/-- C3 counterexample: a run that appends nothing still returns the prior
(non-empty) historical log, so `saveDataFileToS3` does not return only the
records appended during the current run. -/
theorem claim3_counterexample :
    runRecords ("t2") [sampleRow1] sampleDataFile1 = []
    ∧ (saveDataFileToS3 ("t2") [sampleRow1] sampleDataFile1).2 = [sampleUpdate1]
    ∧ (saveDataFileToS3 ("t2") [sampleRow1] sampleDataFile1).2
        ≠ runRecords ("t2") [sampleRow1] sampleDataFile1 := by
  have hzero : runRecords ("t2") [sampleRow1] sampleDataFile1 = [] := by
    unfold runRecords
    rw [show List.map createInstrument [sampleRow1] = [sampleInstrument1] from rfl]
    rw [show sampleDataFile1.instruments = [sampleInstrument1] from rfl]
    rw [show sortInstruments [sampleInstrument1] = [sampleInstrument1] from rfl]
    rw [arrayDiff_self]
    rfl
  refine ⟨hzero, ?_, ?_⟩
  · show sampleDataFile1.updates ++ runRecords ("t2") [sampleRow1] sampleDataFile1 = [sampleUpdate1]
    rw [hzero]
    rfl
  · intro hcon
    have h2 : sampleDataFile1.updates ++ runRecords ("t2") [sampleRow1] sampleDataFile1 = [] := by
      rw [hzero] at hcon
      exact hcon
    rw [hzero, List.append_nil] at h2
    exact List.cons_ne_nil _ _ h2

/-- C3 (amended): `saveDataFileToS3` returns the full updates log of the
new persisted state — the prior log with this run's records appended — and
the caller is responsible for presentation ordering of that full log. -/
theorem claim3_amended (now : String) (instrumentRows : List (List String))
    (dataFile : DataFile) :
    (saveDataFileToS3 now instrumentRows dataFile).2
        = dataFile.updates ++ runRecords now instrumentRows dataFile
    ∧ (saveDataFileToS3 now instrumentRows dataFile).2
        = (saveDataFileToS3 now instrumentRows dataFile).1.updates :=
  ⟨rfl, rfl⟩

/-- C4 counterexample: a selected sequence carrying the same ISIN twice is
persisted with the duplicate intact, so the persisted snapshot is not
strictly ascending (nothing deduplicates it). -/
theorem claim4_counterexample :
    ¬ StrictByIsin (saveDataFileToS3 ("t") [sampleRow1, sampleRow1]
        { instruments := [], updates := [] }).1.instruments := by
  intro hstrict
  have hinst : (saveDataFileToS3 ("t") [sampleRow1, sampleRow1]
      { instruments := [], updates := [] }).1.instruments
      = sortInstruments [sampleInstrument1, sampleInstrument1] := rfl
  rw [hinst] at hstrict
  have hnd : ((sortInstruments [sampleInstrument1, sampleInstrument1]).map
      Instrument.isinCode).Nodup :=
    List.pairwise_map.mpr (hstrict.imp fun h => ne_of_lt h)
  have hperm : ((sortInstruments [sampleInstrument1, sampleInstrument1]).map
      Instrument.isinCode).Perm
        ([sampleInstrument1, sampleInstrument1].map Instrument.isinCode) :=
    (sortInstruments_perm [sampleInstrument1, sampleInstrument1]).map Instrument.isinCode
  have : ([sampleInstrument1, sampleInstrument1].map Instrument.isinCode).Nodup :=
    hperm.nodup_iff.mp hnd
  simp [sampleInstrument1] at this

/-- C4 (amended): whenever the selected sequence is duplicate-free in
`isinCode`, after a reconciliation run the persisted snapshot is strictly
ascending by `isinCode` with no duplicate keys (for every prior state). -/
theorem claim4_amended (now : String) (instrumentRows : List (List String))
    (dataFile : DataFile)
    (hN : ((instrumentRows.map createInstrument).map Instrument.isinCode).Nodup) :
    StrictByIsin (saveDataFileToS3 now instrumentRows dataFile).1.instruments
    ∧ ((saveDataFileToS3 now instrumentRows dataFile).1.instruments.map
        Instrument.isinCode).Nodup := by
  have hinst : (saveDataFileToS3 now instrumentRows dataFile).1.instruments
      = sortInstruments (instrumentRows.map createInstrument) := rfl
  rw [hinst]
  refine ⟨sortInstruments_strict _ hN, ?_⟩
  exact ((sortInstruments_perm (instrumentRows.map createInstrument)).map
    Instrument.isinCode).nodup_iff.mpr hN

/-- Witness for C4 (amended) at a concrete duplicate-free selection. -/
theorem claim4_amended_witness :
    StrictByIsin (saveDataFileToS3 ("t") [sampleRow2, sampleRow1]
        { instruments := [], updates := [] }).1.instruments
    ∧ ((saveDataFileToS3 ("t") [sampleRow2, sampleRow1]
        { instruments := [], updates := [] }).1.instruments.map Instrument.isinCode).Nodup :=
  claim4_amended ("t") [sampleRow2, sampleRow1] { instruments := [], updates := [] }
    (by decide)

/-- C5: append-only update log: the log after a run carries the prior log
as its unchanged prefix (record for record, position for position) and
exactly this run's records after it. -/
theorem claim5_append_only (now : String) (instrumentRows : List (List String))
    (dataFile : DataFile) :
    ((saveDataFileToS3 now instrumentRows dataFile).1.updates.take dataFile.updates.length
        = dataFile.updates)
    ∧ ((saveDataFileToS3 now instrumentRows dataFile).1.updates.drop dataFile.updates.length
        = runRecords now instrumentRows dataFile) := by
  constructor
  · show (dataFile.updates ++ runRecords now instrumentRows dataFile).take
        dataFile.updates.length = dataFile.updates
    exact List.take_left dataFile.updates (runRecords now instrumentRows dataFile)
  · show (dataFile.updates ++ runRecords now instrumentRows dataFile).drop
        dataFile.updates.length = runRecords now instrumentRows dataFile
    exact List.drop_left dataFile.updates (runRecords now instrumentRows dataFile)

/-- C6: within one run the appended records are all the removals — the
diff-filtered prior sorted sequence, in its (ascending) order, each wrapped
with its prior-sequence record — followed by all the additions from the new
sorted sequence likewise; both blocks are strictly ascending in
`isinCode`. -/
theorem claim6_run_record_order (now : String) (instrumentRows : List (List String))
    (dataFile : DataFile)
    (hP : (dataFile.instruments.map Instrument.isinCode).Nodup)
    (hN : ((instrumentRows.map createInstrument).map Instrument.isinCode).Nodup) :
    runRecords now instrumentRows dataFile =
      ((sortInstruments dataFile.instruments).filter fun p =>
          !((sortInstruments (instrumentRows.map createInstrument)).any fun q => isinEq p q)).map
        (mkUpdateRecord ("removed") now)
      ++ ((sortInstruments (instrumentRows.map createInstrument)).filter fun q =>
          !((sortInstruments dataFile.instruments).any fun p => isinEq p q)).map
        (mkUpdateRecord ("added") now)
    ∧ StrictByIsin ((sortInstruments dataFile.instruments).filter fun p =>
        !((sortInstruments (instrumentRows.map createInstrument)).any fun q => isinEq p q))
    ∧ StrictByIsin ((sortInstruments (instrumentRows.map createInstrument)).filter fun q =>
        !((sortInstruments dataFile.instruments).any fun p => isinEq p q)) := by
  refine ⟨runRecords_eq now instrumentRows dataFile hP hN, ?_, ?_⟩
  · exact (sortInstruments_strict _ hP).filter _
  · exact (sortInstruments_strict _ hN).filter _

/-- Witness for C2 at a concrete prior state, selection and key. -/
theorem claim2_witness :
    ("US0000000002") ∈ (runRecords ("t2") [sampleRow1] sampleDataFile2).map
        (fun u => u.instrument.isinCode)
      ↔ ((("US0000000002") ∈ sampleDataFile2.instruments.map Instrument.isinCode
            ∧ ("US0000000002") ∉ ([sampleRow1].map createInstrument).map Instrument.isinCode)
        ∨ (("US0000000002") ∈ ([sampleRow1].map createInstrument).map Instrument.isinCode
            ∧ ("US0000000002") ∉ sampleDataFile2.instruments.map Instrument.isinCode)) :=
  claim2_diff_completeness ("t2") [sampleRow1] sampleDataFile2 (by decide) (by decide)
    ("US0000000002")

/-- Witness for C6 at a concrete prior state and selection. -/
theorem claim6_witness :
    runRecords ("t2") [sampleRow2] sampleDataFile1 =
      ((sortInstruments sampleDataFile1.instruments).filter fun p =>
          !((sortInstruments ([sampleRow2].map createInstrument)).any fun q => isinEq p q)).map
        (mkUpdateRecord ("removed") ("t2"))
      ++ ((sortInstruments ([sampleRow2].map createInstrument)).filter fun q =>
          !((sortInstruments sampleDataFile1.instruments).any fun p => isinEq p q)).map
        (mkUpdateRecord ("added") ("t2"))
    ∧ StrictByIsin ((sortInstruments sampleDataFile1.instruments).filter fun p =>
        !((sortInstruments ([sampleRow2].map createInstrument)).any fun q => isinEq p q))
    ∧ StrictByIsin ((sortInstruments ([sampleRow2].map createInstrument)).filter fun q =>
        !((sortInstruments sampleDataFile1.instruments).any fun p => isinEq p q)) :=
  claim6_run_record_order ("t2") [sampleRow2] sampleDataFile1 (by decide) (by decide)

/-- C10: determinism of the core transforms: with equal inputs (including
the explicit clock), `saveDataFileToS3` produces an identical persisted
blob and returned list, and `doParseAndValidation` and `selectInstruments`
are functions of their input alone. -/
theorem claim10_determinism (now₁ now₂ : String) (rows₁ rows₂ : List (List String))
    (df₁ df₂ : DataFile) (body₁ body₂ : JValue) (sel₁ sel₂ : List JValue)
    (hn : now₁ = now₂) (hr : rows₁ = rows₂) (hd : df₁ = df₂) (hb : body₁ = body₂)
    (hs : sel₁ = sel₂) :
    saveDataFileToS3 now₁ rows₁ df₁ = saveDataFileToS3 now₂ rows₂ df₂
    ∧ doParseAndValidation body₁ = doParseAndValidation body₂
    ∧ selectInstruments sel₁ = selectInstruments sel₂ := by
  subst hn; subst hr; subst hd; subst hb; subst hs
  exact ⟨rfl, rfl, rfl⟩

/-- Witness for C10 at concrete equal inputs. -/
theorem claim10_witness :
    saveDataFileToS3 ("t") [sampleRow1] sampleDataFile1
        = saveDataFileToS3 ("t") [sampleRow1] sampleDataFile1
    ∧ doParseAndValidation .null = doParseAndValidation .null
    ∧ selectInstruments [] = selectInstruments [] :=
  claim10_determinism ("t") ("t") [sampleRow1] [sampleRow1] sampleDataFile1 sampleDataFile1
    .null .null [] [] rfl rfl rfl rfl rfl

/-- The code's regex test agrees with the spec's description of the ISIN
pattern (two uppercase letters, nine uppercase-or-digit characters, one
trailing digit, twelve characters in all). -/
theorem specIsinChars_eq_isinCodeMatch (s : String) : specIsinChars s = isinCodeMatch s := by
  unfold specIsinChars isinCodeMatch
  obtain ⟨cs⟩ := s
  rcases cs with _ | ⟨c1, _ | ⟨c2, _ | ⟨c3, _ | ⟨c4, _ | ⟨c5, _ | ⟨c6, _ | ⟨c7, _ | ⟨c8, _ |
    ⟨c9, _ | ⟨c10, _ | ⟨c11, _ | ⟨c12, _ | ⟨c13, rest⟩⟩⟩⟩⟩⟩⟩⟩⟩⟩⟩⟩⟩ <;>
    first
      | rfl
      | simp [Bool.and_assoc]

/-- A length-window field check of the source equals the negation of the
spec-side constraint. -/
theorem strLenCond (v : JValue) (lo hi : Nat) :
    (!(isStr v) || decide (jStrLen v < lo) || decide (hi < jStrLen v))
      = !(specStrLenOk v lo hi) := by
  apply Bool.eq_iff_iff.mpr
  cases v <;> simp [isStr, jStrLen, specStrLenOk]

/-- The ISIN field check of the source equals the negation of the spec-side
constraint. -/
theorem isinCond (v : JValue) :
    (!(isStr v) || !(jIsinMatch v)) = !(specIsinOk v) := by
  cases v <;> simp [isStr, jIsinMatch, specIsinOk, specIsinChars_eq_isinCodeMatch]

/-- The `type` field check of the source equals the negation of the
spec-side constraint. -/
theorem typeCond (v : JValue) :
    (!(isStr v) || decide (24 < jStrLen v)) = !(specTypeOk v) := by
  apply Bool.eq_iff_iff.mpr
  cases v <;> simp [isStr, jStrLen, specTypeOk]

/-- The field-check block succeeds exactly on records whose five fields
meet the spec-side §3 constraints. -/
theorem checkInstrumentFields_ok_iff (i : JInstrument) :
    checkInstrumentFields i = .ok ()
      ↔ (specStrLenOk i.ticker 1 12 = true
        ∧ specStrLenOk i.shortName 2 24 = true
        ∧ specStrLenOk i.longName 2 64 = true
        ∧ specIsinOk i.isinCode = true
        ∧ specTypeOk i.type = true) := by
  obtain ⟨t, sn, ln, isin, ty⟩ := i
  unfold checkInstrumentFields
  simp only [strLenCond, isinCond, typeCond]
  by_cases h1 : specStrLenOk t 1 12 = true <;>
    by_cases h2 : specStrLenOk sn 2 24 = true <;>
    by_cases h3 : specStrLenOk ln 2 64 = true <;>
    by_cases h4 : specIsinOk isin = true <;>
    by_cases h5 : specTypeOk ty = true <;>
    simp [h1, h2, h3, h4, h5]

/-- Any error produced by the field-check block is an `InstrumentError`. -/
theorem checkInstrumentFields_error (i : JInstrument) (e : VError)
    (h : checkInstrumentFields i = .error e) : isInstrumentErrorB e = true := by
  unfold checkInstrumentFields at h
  split at h
  · cases h; rfl
  · split at h
    · cases h; rfl
    · split at h
      · cases h; rfl
      · split at h
        · cases h; rfl
        · split at h
          · cases h; rfl
          · cases h

/-- A row passes the main variant's per-row check exactly when it meets the
spec-side row contract. -/
theorem checkRow_ok_iff (row : JValue) : checkRow row = .ok () ↔ specRowOk row = true := by
  cases row with
  | arr cells =>
    unfold checkRow specRowOk
    dsimp only
    by_cases hlen : (decide (cells.length < 5) || decide (7 < cells.length)) = true
    · rw [if_pos hlen]
      constructor
      · intro h
        exact absurd h (by simp)
      · intro h
        simp only [Bool.and_eq_true, decide_eq_true_eq] at h
        simp only [Bool.or_eq_true, decide_eq_true_eq] at hlen
        omega
    · rw [if_neg hlen]
      rw [checkInstrumentFields_ok_iff]
      simp only [Bool.or_eq_true, decide_eq_true_eq, not_or, not_lt] at hlen
      simp only [createInstrumentOfCells, Bool.and_eq_true, decide_eq_true_eq]
      tauto
  | null => simp [checkRow, specRowOk]
  | bool b => simp [checkRow, specRowOk]
  | num n => simp [checkRow, specRowOk]
  | str s2 => simp [checkRow, specRowOk]
  | obj fs => simp [checkRow, specRowOk]

/-- Any error produced by the main per-row check is an `InstrumentError`. -/
theorem checkRow_error (row : JValue) (e : VError) (h : checkRow row = .error e) :
    isInstrumentErrorB e = true := by
  unfold checkRow at h
  cases row with
  | arr cells =>
    dsimp only at h
    split at h
    · cases h; rfl
    · exact checkInstrumentFields_error _ e h
  | null => cases h; rfl
  | bool b => cases h; rfl
  | num n => cases h; rfl
  | str s2 => cases h; rfl
  | obj fs => cases h; rfl

/-- The row traversal succeeds exactly when every row meets the spec-side
row contract. -/
theorem checkRows_ok_iff (rows : List JValue) :
    checkRows rows = .ok () ↔ rows.all specRowOk = true := by
  induction rows with
  | nil => simp [checkRows]
  | cons r rs ih =>
    unfold checkRows
    cases hr : checkRow r with
    | error e =>
      have hr' : ¬ specRowOk r = true := by
        intro hc
        have := (checkRow_ok_iff r).mpr hc
        rw [this] at hr
        cases hr
      simp [List.all_cons, hr']
    | ok u =>
      obtain ⟨⟩ := u
      have hr' : specRowOk r = true := (checkRow_ok_iff r).mp hr
      simp [List.all_cons, hr', ih]

/-- Any error produced by the row traversal is an `InstrumentError`. -/
theorem checkRows_error (rows : List JValue) (e : VError) (h : checkRows rows = .error e) :
    isInstrumentErrorB e = true := by
  induction rows with
  | nil => cases h
  | cons r rs ih =>
    unfold checkRows at h
    cases hr : checkRow r with
    | error e2 =>
      rw [hr] at h
      cases h
      exact checkRow_error r e hr
    | ok u =>
      rw [hr] at h
      exact ih h

/-- On non-null bodies the validator is its `data`-field stage. -/
theorem doParseAndValidation_of_ne_null (v : JValue) (hv : v ≠ JValue.null) :
    doParseAndValidation v = doParseAndValidationCore v := by
  cases v with
  | null => exact absurd rfl hv
  | bool b => rfl
  | num n => rfl
  | str s2 => rfl
  | arr elems => rfl
  | obj fs => rfl

/-- On non-null bodies the `part_000` validator is its `data`-field
stage. -/
theorem doParseAndValidationPart0_of_ne_null (v : JValue) (hv : v ≠ JValue.null) :
    doParseAndValidationPart0 v = doParseAndValidationPart0Core v := by
  cases v with
  | null => exact absurd rfl hv
  | bool b => rfl
  | num n => rfl
  | str s2 => rfl
  | arr elems => rfl
  | obj fs => rfl

/-- C7 counterexample: the body `null` parses as JSON and has no `data`
field, yet the validator raises a `TypeError` (property access on `null`),
not a `ValidationError`. -/
theorem claim7_counterexample :
    doParseAndValidation JValue.null = .error .typeError
    ∧ isValidationError (doParseAndValidation JValue.null) = false
    ∧ getField JValue.null ("data") = none
    ∧ specAccepts JValue.null = false :=
  ⟨rfl, rfl, rfl, rfl⟩

/-- C7 (amended): for every parsed body other than JSON `null`, the
validator throws a `ValidationError` (an `InstrumentError`) exactly when
the body violates the spec-side contract — `data` missing, empty or not
list-shaped, or some row ill-shaped or with an out-of-contract field — and
otherwise returns the original rows unchanged. -/
theorem claim7_amended (v : JValue) (hv : v ≠ JValue.null) :
    (isValidationError (doParseAndValidation v) = true ↔ specAccepts v = false)
    ∧ (specAccepts v = true → doParseAndValidation v = .ok (dataRowsOf v)) := by
  rw [doParseAndValidation_of_ne_null v hv]
  unfold doParseAndValidationCore specAccepts dataRowsOf
  cases hgf : getField v ("data") with
  | none => simp [isValidationError, isInstrumentErrorB]
  | some w =>
    cases w with
    | arr rows =>
      dsimp only
      by_cases hlen : rows.length = 0
      · rw [if_pos hlen]
        have hempty : rows.isEmpty = true := by
          rw [List.length_eq_zero.mp hlen]
          rfl
        simp [isValidationError, isInstrumentErrorB, hempty]
      · rw [if_neg hlen]
        have hempty : rows.isEmpty = false := by
          cases rows with
          | nil => exact absurd rfl hlen
          | cons x xs => rfl
        cases hcr : checkRows rows with
        | error e =>
          have hall : rows.all specRowOk = false := by
            apply Bool.eq_false_iff.mpr
            intro hc
            have hok := (checkRows_ok_iff rows).mpr hc
            rw [hok] at hcr
            cases hcr
          have hval : isInstrumentErrorB e = true := checkRows_error rows e hcr
          simp [isValidationError, hval, hall, hempty]
        | ok u =>
          obtain ⟨⟩ := u
          have hall : rows.all specRowOk = true := (checkRows_ok_iff rows).mp hcr
          simp [isValidationError, isInstrumentErrorB, hall, hempty]
    | null => simp [isValidationError, isInstrumentErrorB]
    | bool b => simp [isValidationError, isInstrumentErrorB]
    | num n => simp [isValidationError, isInstrumentErrorB]
    | str s2 => simp [isValidationError, isInstrumentErrorB]
    | obj fs => simp [isValidationError, isInstrumentErrorB]

/-- Witness for C7 (amended) at a concrete well-formed body. -/
theorem claim7_amended_witness :
    (isValidationError (doParseAndValidation sampleBody5) = true
        ↔ specAccepts sampleBody5 = false)
    ∧ (specAccepts sampleBody5 = true
        → doParseAndValidation sampleBody5 = .ok (dataRowsOf sampleBody5)) :=
  claim7_amended sampleBody5 (fun h => JValue.noConfusion h)

/-- A row the `part_000` per-row check accepts (exactly five fields) also
passes the main variant's per-row check. -/
theorem checkRowPart0_ok (row : JValue) (h : checkRowPart0 row = .ok ()) :
    checkRow row = .ok () := by
  cases row with
  | arr cells =>
    unfold checkRowPart0 at h
    unfold checkRow
    dsimp only at h ⊢
    by_cases h5 : (cells.length == 5) = true
    · have hl : cells.length = 5 := by simpa using h5
      rw [if_neg (by rw [hl]; simp)]
      rw [if_neg (by rw [h5]; simp)] at h
      exact h
    · rw [if_pos (by rw [Bool.eq_false_iff.mpr h5]; rfl)] at h
      cases h
  | null => cases h
  | bool b => cases h
  | num n => cases h
  | str s2 => cases h
  | obj fs => cases h

/-- Traversal version of `checkRowPart0_ok`. -/
theorem checkRowsPart0_ok (rows : List JValue) (h : checkRowsPart0 rows = .ok ()) :
    checkRows rows = .ok () := by
  induction rows with
  | nil => rfl
  | cons r rs ih =>
    unfold checkRowsPart0 at h
    unfold checkRows
    cases hr : checkRowPart0 r with
    | error e =>
      rw [hr] at h
      cases h
    | ok u =>
      obtain ⟨⟩ := u
      rw [hr] at h
      rw [checkRowPart0_ok r hr]
      exact ih h

/-- C9 counterexample: the two variants are not equivalent: a body with a
six-field row is accepted by the main validator and rejected by the
`part_000` validator. -/
theorem claim9_counterexample :
    doParseAndValidation sampleBody6 = .ok [sample6Row]
    ∧ doParseAndValidationPart0 sampleBody6
        = .error (.instrumentError ("invalid instrument row") (some sample6Row))
    ∧ doParseAndValidation sampleBody6 ≠ doParseAndValidationPart0 sampleBody6 := by
  have h1 : doParseAndValidation sampleBody6 = .ok [sample6Row] := rfl
  have h2 : doParseAndValidationPart0 sampleBody6
      = .error (.instrumentError ("invalid instrument row") (some sample6Row)) := rfl
  refine ⟨h1, h2, fun h => ?_⟩
  rw [h1, h2] at h
  cases h

/-- C9 (amended): every body the `part_000` validator accepts is accepted
by the main validator with the same returned rows; the converse fails for
rows of six or seven fields. -/
theorem claim9_amended (v : JValue) (r : List JValue)
    (h : doParseAndValidationPart0 v = .ok r) : doParseAndValidation v = .ok r := by
  have hv : v ≠ JValue.null := by
    intro hnull
    rw [hnull] at h
    cases h
  rw [doParseAndValidationPart0_of_ne_null v hv] at h
  rw [doParseAndValidation_of_ne_null v hv]
  unfold doParseAndValidationPart0Core at h
  unfold doParseAndValidationCore
  cases hgf : getField v ("data") with
  | none =>
    rw [hgf] at h
    cases h
  | some w =>
    rw [hgf] at h
    cases w with
    | arr rows =>
      dsimp only at h ⊢
      by_cases hlen : rows.length = 0
      · rw [if_pos hlen] at h
        cases h
      · rw [if_neg hlen] at h
        rw [if_neg hlen]
        cases hcr : checkRowsPart0 rows with
        | error e =>
          rw [hcr] at h
          cases h
        | ok u =>
          obtain ⟨⟩ := u
          rw [hcr] at h
          rw [checkRowsPart0_ok rows hcr]
          exact h
    | null => cases h
    | bool b => cases h
    | num n => cases h
    | str s2 => cases h
    | obj fs => cases h

/-- Witness for C9 (amended): a concrete five-field body accepted by
`part_000` is accepted identically by the main variant. -/
theorem claim9_amended_witness :
    doParseAndValidation sampleBody5 = .ok [sample5Row] :=
  claim9_amended sampleBody5 [sample5Row] rfl

/-- Splitting form of `renderPrecededByWrite`: wherever `render` occurs in
the trace, a data-file write occurs strictly before it. -/
theorem renderPrecededByWrite_spec (tr : List Event) (h : renderPrecededByWrite tr = true) :
    ∀ pre suf, tr = pre ++ Event.render :: suf → ∃ df, Event.putDataFile df ∈ pre := by
  induction tr with
  | nil =>
    intro pre suf h2
    exact absurd h2 (by simp)
  | cons e rest ih =>
    intro pre suf h2
    cases pre with
    | nil =>
      simp only [List.nil_append, List.cons.injEq] at h2
      rw [h2.1] at h
      simp [renderPrecededByWrite] at h
    | cons p ps =>
      simp only [List.cons_append, List.cons.injEq] at h2
      obtain ⟨he, hrest⟩ := h2
      subst he
      cases e with
      | putDataFile df => exact ⟨df, List.mem_cons_self _ _⟩
      | render => simp [renderPrecededByWrite] at h
      | fetch =>
        obtain ⟨df, hdf⟩ := ih (by simpa [renderPrecededByWrite] using h) ps suf hrest
        exact ⟨df, List.mem_cons_of_mem _ hdf⟩
      | headObject =>
        obtain ⟨df, hdf⟩ := ih (by simpa [renderPrecededByWrite] using h) ps suf hrest
        exact ⟨df, List.mem_cons_of_mem _ hdf⟩
      | getObject =>
        obtain ⟨df, hdf⟩ := ih (by simpa [renderPrecededByWrite] using h) ps suf hrest
        exact ⟨df, List.mem_cons_of_mem _ hdf⟩
      | putHtml =>
        obtain ⟨df, hdf⟩ := ih (by simpa [renderPrecededByWrite] using h) ps suf hrest
        exact ⟨df, List.mem_cons_of_mem _ hdf⟩

/-- C8: commit-before-render asymmetry: in every run, any rendering attempt
is strictly preceded in the trace by a completed write of the state blob
(so a rendering failure leaves the persisted snapshot and update log
durably updated — in particular a run ending in `RenderError` has written
the blob), while a fetch failure, an unparseable body or a validation
error aborts the run with no storage write at all. -/
theorem claim8_commit_before_render (w : World) :
    (∀ pre suf, (runHandler w).1 = pre ++ Event.render :: suf
      → ∃ df, Event.putDataFile df ∈ pre)
    ∧ ((runHandler w).2 = Except.error RunError.renderError
      → ∃ df, Event.putDataFile df ∈ (runHandler w).1)
    ∧ (isPreStorageError (runHandler w).2 = true
      → (runHandler w).1.all (fun e => !(isWriteEvent e)) = true) := by
  obtain ⟨fr, er, rr, pd, ro, po, now⟩ := w
  cases fr with
  | error u =>
    refine ⟨renderPrecededByWrite_spec _ rfl, fun h => ?_, fun _ => rfl⟩
    exact nomatch h
  | ok ob =>
    cases ob with
    | none =>
      refine ⟨renderPrecededByWrite_spec _ rfl, fun h => ?_, fun _ => rfl⟩
      exact nomatch h
    | some body =>
      cases hdp : doParseAndValidation body with
      | error e =>
        simp only [runHandler, hdp]
        refine ⟨renderPrecededByWrite_spec _ rfl, fun h => ?_, fun _ => rfl⟩
        exact nomatch h
      | ok rows =>
        simp only [runHandler, hdp]
        cases er with
        | error u2 =>
          refine ⟨renderPrecededByWrite_spec _ rfl, fun h => ?_, fun h2 => ?_⟩
          · exact nomatch h
          · exact nomatch h2
        | ok eb =>
          cases eb with
          | true =>
            cases rr with
            | error u3 =>
              refine ⟨renderPrecededByWrite_spec _ rfl, fun h => ?_, fun h2 => ?_⟩
              · exact nomatch h
              · exact nomatch h2
            | ok prior =>
              cases pd with
              | false =>
                refine ⟨renderPrecededByWrite_spec _ rfl, fun h => ?_, fun h2 => ?_⟩
                · exact nomatch h
                · exact nomatch h2
              | true =>
                cases ro with
                | false =>
                  refine ⟨renderPrecededByWrite_spec _ rfl,
                    fun _ => ⟨(saveDataFileToS3 now
                        ((selectInstruments rows).map rowCells) prior).1, by simp⟩,
                    fun h2 => ?_⟩
                  exact nomatch h2
                | true =>
                  cases po with
                  | true =>
                    refine ⟨renderPrecededByWrite_spec _ rfl, fun h => ?_, fun h2 => ?_⟩
                    · exact nomatch h
                    · exact nomatch h2
                  | false =>
                    refine ⟨renderPrecededByWrite_spec _ rfl, fun h => ?_, fun h2 => ?_⟩
                    · exact nomatch h
                    · exact nomatch h2
          | false =>
            cases pd with
            | false =>
              refine ⟨renderPrecededByWrite_spec _ rfl, fun h => ?_, fun h2 => ?_⟩
              · exact nomatch h
              · exact nomatch h2
            | true =>
              cases ro with
              | false =>
                refine ⟨renderPrecededByWrite_spec _ rfl,
                  fun _ => ⟨initDataFile ((selectInstruments rows).map rowCells), by simp⟩,
                  fun h2 => ?_⟩
                exact nomatch h2
              | true =>
                cases po with
                | true =>
                  refine ⟨renderPrecededByWrite_spec _ rfl, fun h => ?_, fun h2 => ?_⟩
                  · exact nomatch h
                  · exact nomatch h2
                | false =>
                  refine ⟨renderPrecededByWrite_spec _ rfl, fun h => ?_, fun h2 => ?_⟩
                  · exact nomatch h
                  · exact nomatch h2

/-- Witness for C8: in the concrete render-failure run the state blob was
durably written before the rendering attempt. -/
theorem claim8_witness :
    ∃ df, Event.putDataFile df ∈ (runHandler sampleWorld).1 :=
  (claim8_commit_before_render sampleWorld).2.1 rfl
